import Mathlib

/-!
Shallow embedding of the Google Drive index/directory scripts
(`create_directory.py` and `create_index.py`).

The remote Drive service is modelled as data: a folder's listing is a
finite list of pages; each page carries the files it returns and an
attempt schedule (`Nat → Option Nat`) giving, for each attempt index,
`none` when the remote call succeeds and `some status` when it fails
with an HTTP error of that status.  The continuation-token chain of the
real API is represented by the successive positions in the page list
(the response for page `i` carries a next-page token exactly when a page
`i+1` exists).
-/

deriving instance DecidableEq for Except

attribute [local semireducible] Rat.mul Rat.sub Rat.add Rat.inv

namespace GDrive

/-- Python-level exceptions the scripts can raise.  `RetriesExhausted`
models the `RuntimeError("Exceeded maximum retries ...")`, `HttpError`
the non-rate-limit `googleapiclient` error that is re-raised, and
`KeyError`/`IndexError` the dictionary/list lookup failures. -/
inductive PyError where
  | RetriesExhausted (folder_id : String)
  | HttpError (status : Nat)
  | KeyError (key : String)
  | IndexError
deriving DecidableEq, Repr

/-- One entry of the `owners` list in a Drive API response. -/
structure DOwner where
  displayName : Option String
deriving DecidableEq, Repr

/-- One raw file/folder dictionary `f` as returned by the Drive API
(`files` array of a `files().list` response).  Optional fields model
keys the remote may omit. -/
structure DriveFile where
  id : String
  name : String
  mimeType : String
  size : Option Nat
  owners : Option (List DOwner)
  createdTime : Option String
  modifiedTime : Option String
  webViewLink : Option String
deriving DecidableEq, Repr

/-- `is_folder = f["mimeType"] == "application/vnd.google-apps.folder"`. -/
def is_folder_of (f : DriveFile) : Bool :=
  f.mimeType == "application/vnd.google-apps.folder"

/-- Floor of a rational, computed on its normalized numerator and
denominator (kept kernel-reducible on purpose). -/
def ratFloor (q : ℚ) : ℤ := q.num.fdiv q.den

/-- Python's `round` on rationals: round half to even (banker's rounding). -/
def pyRound (q : ℚ) : ℤ :=
  let f := ratFloor q
  let r := q - f
  if r < 1/2 then f
  else if 1/2 < r then f + 1
  else if f % 2 = 0 then f else f + 1

/-- `round(x, 2)`: round to two decimal places, half to even. -/
def round2 (q : ℚ) : ℚ := (pyRound (q * 100) : ℚ) / 100

/-- `size = int(f["size"]) if "size" in f else 0` followed by
`size_kb = round(size / 1024, 2) if not is_folder else 0`. -/
def size_kb_of (f : DriveFile) : ℚ :=
  if is_folder_of f then 0 else round2 ((f.size.getD 0 : ℚ) / 1024)

/-- `owner = f.get("owners", [{}])[0].get("displayName", "")`.
When the `owners` key is absent the default `[{}]` is indexed, whose
first element has no `displayName`, so the result is `""`.  When the
key is present with an empty list, indexing `[0]` raises `IndexError`. -/
def owner_of (f : DriveFile) : Except PyError String :=
  match f.owners with
  | none => .ok ""
  | some [] => .error .IndexError
  | some (o :: _) => .ok (o.displayName.getD "")

/-- One item dictionary appended by `get_folder_contents`
(`create_directory.py`); `path`/`link` are added later by the walker. -/
structure Item where
  id : String
  name : String
  type : String
  is_folder : Bool
  size_kb : ℚ
  owner : String
  created_date : String
  last_modified_date : String
deriving DecidableEq, Repr

/-- Builds the item dictionary of `create_directory.py` lines 78-94 from
a raw file `f`; fails exactly when the Python block raises. -/
def itemOfFile (f : DriveFile) : Except PyError Item := do
  let owner ← owner_of f
  .ok { id := f.id
        name := f.name
        type := f.mimeType
        is_folder := is_folder_of f
        size_kb := size_kb_of f
        owner := owner
        created_date := f.createdTime.getD ""
        last_modified_date := f.modifiedTime.getD "" }

/-- One item dictionary appended by `get_folder_metadata`
(`create_index.py`), which also carries the pass-through `link`. -/
structure ItemX where
  id : String
  name : String
  link : String
  type : String
  is_folder : Bool
  size_kb : ℚ
  owner : String
  created_date : String
  last_modified_date : String
deriving DecidableEq, Repr

/-- Builds the item dictionary of `create_index.py` lines 77-95.  The
`owner` expression is evaluated before the dictionary literal, so an
`IndexError` from an empty `owners` list preempts the `KeyError` from a
missing `webViewLink`. -/
def itemOfFileX (f : DriveFile) : Except PyError ItemX := do
  let owner ← owner_of f
  match f.webViewLink with
  | none => .error (.KeyError "webViewLink")
  | some link =>
    .ok { id := f.id
          name := f.name
          link := link
          type := f.mimeType
          is_folder := is_folder_of f
          size_kb := size_kb_of f
          owner := owner
          created_date := f.createdTime.getD ""
          last_modified_date := f.modifiedTime.getD "" }

/-- `max_sleep = min(2**retry_count, 64)` from `exponential_backoff_sleep`. -/
def backoffMax (retry_count : Nat) : Nat := min (2 ^ retry_count) 64

/-- `random.uniform(0, max_sleep)` is `max_sleep * random()` with
`random() ∈ [0,1)`; the draw is modelled by an explicit jitter value. -/
def exponential_backoff_time (jitter : ℚ) (retry_count : Nat) : ℚ :=
  jitter * (backoffMax retry_count : ℚ)

/-- The inner `for attempt in range(max_retries): try ... except` loop of
both listers, for one page request.  `sched attempt` is the remote's
response to the given attempt (`none` = success).  Returns the loop's
outcome, the number of remote calls made, and the `max_sleep` bound of
each backoff sleep performed, in order.  The `for ... else` clause
raises `RetriesExhausted` when the budget runs out. -/
def pageAttempts (folder_id : String) (sched : Nat → Option Nat) :
    Nat → Nat → Except PyError Unit × Nat × List Nat
  | _, 0 => (.error (.RetriesExhausted folder_id), 0, [])
  | attempt, r + 1 =>
    match sched attempt with
    | none => (.ok (), 1, [])
    | some s =>
      if s = 429 then
        let rest := pageAttempts folder_id sched (attempt + 1) r
        (rest.1, rest.2.1 + 1, backoffMax attempt :: rest.2.2)
      else (.error (.HttpError s), 1, [])

/-- One page of a folder listing: the attempt schedule of its request
and the files the successful response carries. -/
structure PageP where
  sched : Nat → Option Nat
  files : List DriveFile

/-- Concatenation of all pages' files, in order. -/
def filesOf : List PageP → List DriveFile
  | [] => []
  | p :: ps => p.files ++ filesOf ps

/-- The `for f in files` body of `get_folder_contents`: builds an item
per file, raising on the first failure. -/
def itemsOfFiles : List DriveFile → Except PyError (List Item)
  | [] => .ok []
  | f :: fs => do
    let i ← itemOfFile f
    let rest ← itemsOfFiles fs
    .ok (i :: rest)

/-- Same loop body for `create_index.py`. -/
def itemsOfFilesX : List DriveFile → Except PyError (List ItemX)
  | [] => .ok []
  | f :: fs => do
    let i ← itemOfFileX f
    let rest ← itemsOfFilesX fs
    .ok (i :: rest)

/-- The parameters of one `service.files().list(...)` call as built on
lines 54-61 of `create_directory.py`.  The page token is modelled by the
page index (`none` for the first page). -/
structure ListRequest where
  q : String
  pageSize : Nat
  fields : String
  pageToken : Option Nat
  supportsAllDrives : Bool
  includeItemsFromAllDrives : Bool
deriving DecidableEq, Repr

def dirFields : String :=
  "nextPageToken, files(id, name, mimeType, size, owners, createdTime, modifiedTime)"

def idxFields : String :=
  "nextPageToken, files(id, name, mimeType, size, owners, webViewLink, createdTime, modifiedTime)"

/-- The request of `create_directory.py`; note that no field of it
depends on the `shared_drive_id` argument. -/
def listRequest (folder_id : String) (tok : Option Nat) : ListRequest :=
  { q := "\x27" ++ folder_id ++ "\x27 in parents and trashed=false"
    pageSize := 1000
    fields := dirFields
    pageToken := tok
    supportsAllDrives := true
    includeItemsFromAllDrives := true }

/-- The request of `create_index.py` (adds `webViewLink` to `fields`). -/
def listRequestX (folder_id : String) (tok : Option Nat) : ListRequest :=
  { q := "\x27" ++ folder_id ++ "\x27 in parents and trashed=false"
    pageSize := 1000
    fields := idxFields
    pageToken := tok
    supportsAllDrives := true
    includeItemsFromAllDrives := true }

/-- Result of a lister run: the returned items (or raised error), every
request issued in order (a retried page repeats its request), and the
`max_sleep` bound of every backoff sleep performed. -/
structure LResult (α : Type) where
  result : Except PyError (List α)
  requests : List ListRequest
  sleepBounds : List Nat
deriving DecidableEq, Repr

/-- The `while True` pagination loop of `get_folder_contents`, started
at page index `idx` (the current page token is `none` iff `idx = 0`). -/
def listFrom (folder_id : String) (max_retries : Nat) :
    Nat → List PageP → LResult Item
  | _, [] => ⟨.ok [], [], []⟩
  | idx, p :: rest =>
    let tok : Option Nat := if idx = 0 then none else some idx
    let att := pageAttempts folder_id p.sched 0 max_retries
    let reqs := List.replicate att.2.1 (listRequest folder_id tok)
    match att.1 with
    | .error e => ⟨.error e, reqs, att.2.2⟩
    | .ok () =>
      match itemsOfFiles p.files with
      | .error e => ⟨.error e, reqs, att.2.2⟩
      | .ok its =>
        let r := listFrom folder_id max_retries (idx + 1) rest
        ⟨r.result.map (fun l => its ++ l), reqs ++ r.requests,
          att.2.2 ++ r.sleepBounds⟩

/-- `get_folder_contents(folder_id, shared_drive_id=None, max_retries=7)`
from `create_directory.py`.  The `shared_drive_id` parameter is accepted
but never read by the body. -/
def get_folder_contents (folder_id : String) (shared_drive_id : Option String)
    (max_retries : Nat) (pages : List PageP) : LResult Item :=
  listFrom folder_id max_retries 0 pages

/-- The `while True` pagination loop of `get_folder_metadata`
(`create_index.py`). -/
def listFromX (folder_id : String) (max_retries : Nat) :
    Nat → List PageP → LResult ItemX
  | _, [] => ⟨.ok [], [], []⟩
  | idx, p :: rest =>
    let tok : Option Nat := if idx = 0 then none else some idx
    let att := pageAttempts folder_id p.sched 0 max_retries
    let reqs := List.replicate att.2.1 (listRequestX folder_id tok)
    match att.1 with
    | .error e => ⟨.error e, reqs, att.2.2⟩
    | .ok () =>
      match itemsOfFilesX p.files with
      | .error e => ⟨.error e, reqs, att.2.2⟩
      | .ok its =>
        let r := listFromX folder_id max_retries (idx + 1) rest
        ⟨r.result.map (fun l => its ++ l), reqs ++ r.requests,
          att.2.2 ++ r.sleepBounds⟩

/-- `get_folder_metadata(folder_id, max_retries=7)` from
`create_index.py` (no shared-drive parameter in this variant). -/
def get_folder_metadata (folder_id : String) (max_retries : Nat)
    (pages : List PageP) : LResult ItemX :=
  listFromX folder_id max_retries 0 pages

/-- Does the string start with the path separator? -/
def startsWithSlash (s : String) : Bool :=
  match s.data with
  | [] => false
  | c :: _ => c == '/'

/-- Does the string end with the path separator? -/
def endsWithSlash (s : String) : Bool :=
  match s.data.getLast? with
  | none => false
  | some c => c == '/'

/-- `os.path.join(p, n)` for two components (POSIX semantics): an
absolute second component replaces the first; otherwise the parts are
joined, inserting a separator unless the first part is empty or already
ends in one. -/
def joinPath (p n : String) : String :=
  if startsWithSlash n then n
  else if p = "" ∨ endsWithSlash p then p ++ n
  else p ++ "/" ++ n

/-- `create_share_link(item)` from `create_directory.py`. -/
def create_share_link (item : Item) : String :=
  if item.is_folder then
    "https://drive.google.com/drive/folders/" ++ item.id ++ "?usp=drivesdk"
  else
    "https://drive.google.com/file/d/" ++ item.id ++ "?usp=drivesdk"

/-- A row appended to `metadata_rows` in `create_directory.py`: the item
dictionary after `get_metadata` has set `path` and `link` on it. -/
structure Row extends Item where
  path : String
  link : String
deriving DecidableEq, Repr

/-- A row appended to `metadata_rows` in `create_index.py`: the item
dictionary (its `link` came from the service) after `traverse_folder`
has set `path` on it. -/
structure RowX extends ItemX where
  path : String
deriving DecidableEq, Repr

/-- The remote service, as seen through `files().list`: each folder id
is mapped to the pages of its listing.  A real folder always answers
with at least one (possibly empty) page. -/
def Drive : Type := String → List PageP

/-- `get_metadata(folder_id, parent_path, metadata_rows, shared_drive_id)`
from `create_directory.py`, returning the rows it appends (in append
order) instead of mutating an accumulator.  Recursion into subfolders is
bounded by `fuel`; `none` means the bound was hit, which cannot happen
on an acyclic remote tree of depth below `fuel` (the service forbids a
folder from containing its own ancestor). -/
def get_metadata (drive : Drive) :
    Nat → String → String → Option String → Option (Except PyError (List Row))
  | 0, _, _, _ => none
  | fuel + 1, folder_id, parent_path, shared_drive_id =>
    match (get_folder_contents folder_id shared_drive_id 7 (drive folder_id)).result with
    | .error e => some (.error e)
    | .ok contents =>
      contents.foldr
        (fun item acc =>
          let item_path := joinPath parent_path item.name
          let row : Row := { toItem := item, path := item_path,
                             link := create_share_link item }
          let sub : Option (Except PyError (List Row)) :=
            if item.is_folder then
              get_metadata drive fuel item.id item_path shared_drive_id
            else some (.ok [])
          match sub with
          | none => none
          | some (.error e) => some (.error e)
          | some (.ok subRows) =>
            match acc with
            | none => none
            | some (.error e) => some (.error e)
            | some (.ok restRows) => some (.ok (row :: (subRows ++ restRows))))
        (some (.ok []))

/-- `traverse_folder(folder_id, parent_path, metadata_rows)` from
`create_index.py`, with the same fuel convention. -/
def traverse_folder (drive : Drive) :
    Nat → String → String → Option (Except PyError (List RowX))
  | 0, _, _ => none
  | fuel + 1, folder_id, parent_path =>
    match (get_folder_metadata folder_id 7 (drive folder_id)).result with
    | .error e => some (.error e)
    | .ok contents =>
      contents.foldr
        (fun item acc =>
          let item_path := joinPath parent_path item.name
          let row : RowX := { toItemX := item, path := item_path }
          let sub : Option (Except PyError (List RowX)) :=
            if item.is_folder then
              traverse_folder drive fuel item.id item_path
            else some (.ok [])
          match sub with
          | none => none
          | some (.error e) => some (.error e)
          | some (.ok subRows) =>
            match acc with
            | none => none
            | some (.error e) => some (.error e)
            | some (.ok restRows) => some (.ok (row :: (subRows ++ restRows))))
        (some (.ok []))

/-- `write_csv`: returns the file contents written, `none` when no file
is created (`write_csv` returns early on an empty row list). -/
def write_csv {α : Type} (metadata_rows : List α) : Option (List α) :=
  if metadata_rows.isEmpty then none else some metadata_rows

/-- The `__main__` block of `create_directory.py`: runs the walk inside
`try`, writes the CSV only when it succeeds.  Outer `none` = fuel bound
hit; `some none` = no output file written (aborted run, accumulated
rows discarded, or empty tree); `some (some rows)` = file written. -/
def run_directory (drive : Drive) (fuel : Nat)
    (root_folder_id root_folder_name : String) (root_drive_id : Option String) :
    Option (Option (List Row)) :=
  match get_metadata drive fuel root_folder_id root_folder_name root_drive_id with
  | none => none
  | some (.error _) => some none
  | some (.ok rows) => some (write_csv rows)

/-- The `__main__` block of `create_index.py`. -/
def run_index (drive : Drive) (fuel : Nat)
    (root_folder_id root_folder_name : String) :
    Option (Option (List RowX)) :=
  match traverse_folder drive fuel root_folder_id root_folder_name with
  | none => none
  | some (.error _) => some none
  | some (.ok rows) => some (write_csv rows)

/-- Reference enumeration (from the spec, for refinement claims): the
files and folders reachable from the root, root excluded, in
depth-first listing order — each entry before its own subtree, and a
folder's whole subtree before the entry of its next sibling. -/
def reachableFiles (drive : Drive) : Nat → String → Option (List DriveFile)
  | 0, _ => none
  | fuel + 1, folder_id =>
    (filesOf (drive folder_id)).foldr
      (fun f acc =>
        match (if is_folder_of f then reachableFiles drive fuel f.id
               else some []) with
        | none => none
        | some sub =>
          match acc with
          | none => none
          | some rest => some (f :: (sub ++ rest)))
      (some [])

/-- The loop body of `get_metadata` (named copy of the inline fold step,
for reasoning). -/
def walkStep (drive : Drive) (fuel : Nat) (sdid : Option String) (pp : String)
    (item : Item) (acc : Option (Except PyError (List Row))) :
    Option (Except PyError (List Row)) :=
  let item_path := joinPath pp item.name
  let row : Row := { toItem := item, path := item_path,
                     link := create_share_link item }
  let sub : Option (Except PyError (List Row)) :=
    if item.is_folder then get_metadata drive fuel item.id item_path sdid
    else some (.ok [])
  match sub with
  | none => none
  | some (.error e) => some (.error e)
  | some (.ok subRows) =>
    match acc with
    | none => none
    | some (.error e) => some (.error e)
    | some (.ok restRows) => some (.ok (row :: (subRows ++ restRows)))

/-- The loop body of `reachableFiles`. -/
def reachStep (drive : Drive) (fuel : Nat) (f : DriveFile)
    (acc : Option (List DriveFile)) : Option (List DriveFile) :=
  match (if is_folder_of f then reachableFiles drive fuel f.id
         else some []) with
  | none => none
  | some sub =>
    match acc with
    | none => none
    | some rest => some (f :: (sub ++ rest))

/-- Reference enumeration (from the spec, for the path claim): the
files and folders reachable from the root in depth-first listing order,
each paired with the path of its ACTUAL parent — the root label for the
root's direct children, and the parent folder's computed path
(`join(parent_of_parent, parent.name)`) for deeper entries, exactly as
the walker threads `item_path` into each recursive call. -/
def reachableParents (drive : Drive) :
    Nat → String → String → Option (List (DriveFile × String))
  | 0, _, _ => none
  | fuel + 1, folder_id, parent_path =>
    (filesOf (drive folder_id)).foldr
      (fun f acc =>
        match (if is_folder_of f then
                 reachableParents drive fuel f.id (joinPath parent_path f.name)
               else some []) with
        | none => none
        | some sub =>
          match acc with
          | none => none
          | some rest => some ((f, parent_path) :: (sub ++ rest)))
      (some [])

/-- The loop body of `reachableParents`. -/
def parentStep (drive : Drive) (fuel : Nat) (pp : String) (f : DriveFile)
    (acc : Option (List (DriveFile × String))) :
    Option (List (DriveFile × String)) :=
  match (if is_folder_of f then
           reachableParents drive fuel f.id (joinPath pp f.name)
         else some []) with
  | none => none
  | some sub =>
    match acc with
    | none => none
    | some rest => some ((f, pp) :: (sub ++ rest))

/-- Sample data: a file with a reported size and an owner. -/
def fileA : DriveFile :=
  ⟨"idA", "a.txt", "text/plain", some 500000, some [⟨some "Alice"⟩],
    some "2020", some "2021", some "http://x"⟩

/-- Sample data: a subfolder. -/
def folderB : DriveFile :=
  ⟨"idB", "B", "application/vnd.google-apps.folder", none, none, none, none,
    some "http://b"⟩

/-- Sample data: a zero-byte file with an owner lacking a display name. -/
def fileC : DriveFile :=
  ⟨"idC", "c.txt", "text/plain", some 0, some [⟨none⟩], none, none,
    some "http://c"⟩

/-- Sample remote: root folder `root` containing `fileA` and `folderB`;
`folderB` containing `fileC`; no rate limiting anywhere. -/
def sampleDrive : Drive := fun fid =>
  if fid = "root" then [⟨fun _ => none, [fileA, folderB]⟩]
  else if fid = "idB" then [⟨fun _ => none, [fileC]⟩]
  else [⟨fun _ => none, []⟩]

/-- The rows `get_metadata` produces on `sampleDrive` from root label
`R`. -/
def sampleRows : List Row :=
  [⟨⟨"idA", "a.txt", "text/plain", false, 12207/25, "Alice", "2020", "2021"⟩,
      "R/a.txt", "https://drive.google.com/file/d/idA?usp=drivesdk"⟩,
   ⟨⟨"idB", "B", "application/vnd.google-apps.folder", true, 0, "", "", ""⟩,
      "R/B", "https://drive.google.com/drive/folders/idB?usp=drivesdk"⟩,
   ⟨⟨"idC", "c.txt", "text/plain", false, 0, "", "", ""⟩,
      "R/B/c.txt", "https://drive.google.com/file/d/idC?usp=drivesdk"⟩]

/-! ### Basic lemmas about the item builders -/

theorem itemOfFile_err {f : DriveFile} {e : PyError}
    (how : owner_of f = .error e) : itemOfFile f = .error e := by
  unfold itemOfFile
  rw [how]
  rfl

theorem itemOfFile_eq {f : DriveFile} {w : String}
    (how : owner_of f = .ok w) :
    itemOfFile f = .ok { id := f.id
                         name := f.name
                         type := f.mimeType
                         is_folder := is_folder_of f
                         size_kb := size_kb_of f
                         owner := w
                         created_date := f.createdTime.getD ""
                         last_modified_date := f.modifiedTime.getD "" } := by
  unfold itemOfFile
  rw [how]
  rfl

theorem itemOfFile_ok {f : DriveFile} {item : Item}
    (h : itemOfFile f = .ok item) :
    item.id = f.id ∧ item.name = f.name ∧ item.type = f.mimeType ∧
      item.is_folder = is_folder_of f ∧ item.size_kb = size_kb_of f := by
  cases how : owner_of f with
  | error e => rw [itemOfFile_err how] at h; exact absurd h (by simp)
  | ok w =>
    rw [itemOfFile_eq how] at h
    cases h
    exact ⟨rfl, rfl, rfl, rfl, rfl⟩

theorem owner_of_ok {f : DriveFile} (h : f.owners ≠ some []) :
    ∃ w, owner_of f = .ok w := by
  unfold owner_of
  cases hf : f.owners with
  | none => exact ⟨_, rfl⟩
  | some l =>
    cases l with
    | nil => exact absurd hf h
    | cons o os => exact ⟨_, rfl⟩

/-! ### Lemmas about the per-page retry loop -/

theorem pageAttempts_zero (fid : String) (sched : Nat → Option Nat) (a : Nat) :
    pageAttempts fid sched a 0 = (.error (.RetriesExhausted fid), 0, []) := rfl

theorem pageAttempts_succ_ok {sched : Nat → Option Nat} {a : Nat}
    (fid : String) (r : Nat) (h : sched a = none) :
    pageAttempts fid sched a (r + 1) = (.ok (), 1, []) := by
  conv_lhs => rw [pageAttempts]
  rw [h]

theorem pageAttempts_succ_429 {sched : Nat → Option Nat} {a : Nat}
    (fid : String) (r : Nat) (h : sched a = some 429) :
    pageAttempts fid sched a (r + 1) =
      ((pageAttempts fid sched (a + 1) r).1,
        (pageAttempts fid sched (a + 1) r).2.1 + 1,
        backoffMax a :: (pageAttempts fid sched (a + 1) r).2.2) := by
  conv_lhs => rw [pageAttempts]
  rw [h]
  rfl

theorem pageAttempts_succ_err {sched : Nat → Option Nat} {a s : Nat}
    (fid : String) (r : Nat) (h : sched a = some s) (hs : s ≠ 429) :
    pageAttempts fid sched a (r + 1) = (.error (.HttpError s), 1, []) := by
  conv_lhs => rw [pageAttempts]
  rw [h]
  simp [hs]

theorem pageAttempts_calls_le (fid : String) (sched : Nat → Option Nat) :
    ∀ a r, (pageAttempts fid sched a r).2.1 ≤ r := by
  intro a r
  induction r generalizing a with
  | zero => exact Nat.le_refl 0
  | succ r ih =>
    cases h : sched a with
    | none =>
      rw [pageAttempts_succ_ok fid r h]
      exact Nat.succ_le_succ (Nat.zero_le r)
    | some s =>
      by_cases hs : s = 429
      · subst hs
        rw [pageAttempts_succ_429 fid r h]
        exact Nat.succ_le_succ (ih (a + 1))
      · rw [pageAttempts_succ_err fid r h hs]
        exact Nat.succ_le_succ (Nat.zero_le r)

theorem pageAttempts_exhausted_calls (fid : String) (sched : Nat → Option Nat) :
    ∀ a r, (pageAttempts fid sched a r).1 = .error (.RetriesExhausted fid) →
      (pageAttempts fid sched a r).2.1 = r := by
  intro a r
  induction r generalizing a with
  | zero => intro _; rfl
  | succ r ih =>
    cases h : sched a with
    | none => rw [pageAttempts_succ_ok fid r h]; intro hc; simp at hc
    | some s =>
      by_cases hs : s = 429
      · subst hs
        rw [pageAttempts_succ_429 fid r h]
        intro hc
        exact congrArg Nat.succ (ih (a + 1) hc)
      · rw [pageAttempts_succ_err fid r h hs]
        intro hc
        simp at hc

theorem pageAttempts_all429 (fid : String) (sched : Nat → Option Nat) :
    ∀ a r, (∀ k, k < r → sched (a + k) = some 429) →
      pageAttempts fid sched a r =
        (.error (.RetriesExhausted fid), r, (List.range' a r).map backoffMax) := by
  intro a r
  induction r generalizing a with
  | zero => intro _; rfl
  | succ r ih =>
    intro h
    have h0 : sched a = some 429 := by simpa using h 0 (Nat.succ_pos r)
    have hrest : ∀ k, k < r → sched (a + 1 + k) = some 429 := by
      intro k hk
      have := h (k + 1) (Nat.succ_lt_succ hk)
      rwa [show a + (k + 1) = a + 1 + k by omega] at this
    rw [pageAttempts_succ_429 fid r h0, ih (a + 1) hrest, List.range'_succ]
    rfl

theorem pageAttempts_sleeps (fid : String) (sched : Nat → Option Nat) :
    ∀ a r, (pageAttempts fid sched a r).2.2 =
      (List.range' a (pageAttempts fid sched a r).2.2.length).map backoffMax := by
  intro a r
  induction r generalizing a with
  | zero => rfl
  | succ r ih =>
    cases h : sched a with
    | none => rw [pageAttempts_succ_ok fid r h]; rfl
    | some s =>
      by_cases hs : s = 429
      · subst hs
        rw [pageAttempts_succ_429 fid r h]
        show backoffMax a :: (pageAttempts fid sched (a + 1) r).2.2 =
          (List.range' a ((pageAttempts fid sched (a + 1) r).2.2.length + 1)).map backoffMax
        rw [List.range'_succ, List.map_cons]
        exact congrArg _ (ih (a + 1))
      · rw [pageAttempts_succ_err fid r h hs]; rfl

theorem pageAttempts_success (fid : String) (sched : Nat → Option Nat) :
    ∀ a j r, j < r → (∀ k, k < j → sched (a + k) = some 429) →
      sched (a + j) = none →
      pageAttempts fid sched a r =
        (.ok (), j + 1, (List.range' a j).map backoffMax) := by
  intro a j r
  induction r generalizing a j with
  | zero => intro h; exact absurd h (Nat.not_lt_zero j)
  | succ r ih =>
    intro hj h429 hsucc
    cases j with
    | zero =>
      simp only [Nat.add_zero] at hsucc
      rw [pageAttempts_succ_ok fid r hsucc]
      rfl
    | succ j =>
      have h0 : sched a = some 429 := by simpa using h429 0 (Nat.succ_pos j)
      have h429' : ∀ k, k < j → sched (a + 1 + k) = some 429 := by
        intro k hk
        have := h429 (k + 1) (Nat.succ_lt_succ hk)
        rwa [show a + (k + 1) = a + 1 + k by omega] at this
      have hsucc' : sched (a + 1 + j) = none := by
        rwa [show a + 1 + j = a + (j + 1) by omega]
      rw [pageAttempts_succ_429 fid r h0,
        ih (a + 1) j (Nat.lt_of_succ_lt_succ hj) h429' hsucc', List.range'_succ]
      rfl

theorem pageAttempts_nonRateLimit (fid : String) (sched : Nat → Option Nat) :
    ∀ a j r s, j < r → (∀ k, k < j → sched (a + k) = some 429) →
      sched (a + j) = some s → s ≠ 429 →
      pageAttempts fid sched a r =
        (.error (.HttpError s), j + 1, (List.range' a j).map backoffMax) := by
  intro a j r s
  induction r generalizing a j with
  | zero => intro h; exact absurd h (Nat.not_lt_zero j)
  | succ r ih =>
    intro hj h429 herr hs
    cases j with
    | zero =>
      simp only [Nat.add_zero] at herr
      rw [pageAttempts_succ_err fid r herr hs]
      rfl
    | succ j =>
      have h0 : sched a = some 429 := by simpa using h429 0 (Nat.succ_pos j)
      have h429' : ∀ k, k < j → sched (a + 1 + k) = some 429 := by
        intro k hk
        have := h429 (k + 1) (Nat.succ_lt_succ hk)
        rwa [show a + (k + 1) = a + 1 + k by omega] at this
      have herr' : sched (a + 1 + j) = some s := by
        rwa [show a + 1 + j = a + (j + 1) by omega]
      rw [pageAttempts_succ_429 fid r h0,
        ih (a + 1) j (Nat.lt_of_succ_lt_succ hj) h429' herr' hs, List.range'_succ]
      rfl

/-! ### Lemmas about the page-item loop -/

theorem itemsOfFiles_cons (f : DriveFile) (fs : List DriveFile) :
    itemsOfFiles (f :: fs) =
      (match itemOfFile f with
       | .error e => .error e
       | .ok i =>
         match itemsOfFiles fs with
         | .error e => .error e
         | .ok rest => .ok (i :: rest)) := by
  conv_lhs => rw [itemsOfFiles]
  cases itemOfFile f with
  | error e => rfl
  | ok i =>
    cases itemsOfFiles fs with
    | error e => rfl
    | ok rest => rfl

theorem itemsOfFilesX_cons (f : DriveFile) (fs : List DriveFile) :
    itemsOfFilesX (f :: fs) =
      (match itemOfFileX f with
       | .error e => .error e
       | .ok i =>
         match itemsOfFilesX fs with
         | .error e => .error e
         | .ok rest => .ok (i :: rest)) := by
  conv_lhs => rw [itemsOfFilesX]
  cases itemOfFileX f with
  | error e => rfl
  | ok i =>
    cases itemsOfFilesX fs with
    | error e => rfl
    | ok rest => rfl

theorem itemsOfFiles_append (xs ys : List DriveFile) :
    itemsOfFiles (xs ++ ys) =
      (match itemsOfFiles xs with
       | .error e => .error e
       | .ok a =>
         match itemsOfFiles ys with
         | .error e => .error e
         | .ok b => .ok (a ++ b)) := by
  induction xs with
  | nil =>
    show itemsOfFiles ys = _
    cases itemsOfFiles ys with
    | error e => rfl
    | ok b => rfl
  | cons x xs ih =>
    show itemsOfFiles (x :: (xs ++ ys)) = _
    rw [itemsOfFiles_cons, itemsOfFiles_cons]
    cases itemOfFile x with
    | error e => rfl
    | ok i =>
      rw [ih]
      cases itemsOfFiles xs with
      | error e => rfl
      | ok a =>
        cases itemsOfFiles ys with
        | error e => rfl
        | ok b => rfl

theorem itemsOfFiles_ok_map {fs : List DriveFile} {its : List Item}
    (h : itemsOfFiles fs = .ok its) :
    its.map (fun i => i.id) = fs.map (fun f => f.id) ∧
      its.map (fun i => i.name) = fs.map (fun f => f.name) ∧
      its.map (fun i => i.is_folder) = fs.map is_folder_of := by
  induction fs generalizing its with
  | nil =>
    cases h
    exact ⟨rfl, rfl, rfl⟩
  | cons f fs ih =>
    rw [itemsOfFiles_cons] at h
    cases hi : itemOfFile f with
    | error e => rw [hi] at h; exact absurd h (by simp)
    | ok i =>
      rw [hi] at h
      cases hr : itemsOfFiles fs with
      | error e => rw [hr] at h; exact absurd h (by simp)
      | ok rest =>
        rw [hr] at h
        cases h
        obtain ⟨h1, h2, h3⟩ := ih hr
        obtain ⟨g1, g2, _, g4, _⟩ := itemOfFile_ok hi
        refine ⟨?_, ?_, ?_⟩
        · simpa [g1] using h1
        · simpa [g2] using h2
        · simpa [g4] using h3

/-! ### Lemmas about the pagination loop -/

theorem listFrom_nil (fid : String) (mr idx : Nat) :
    listFrom fid mr idx [] = ⟨.ok [], [], []⟩ := rfl

theorem listFrom_cons (fid : String) (mr idx : Nat) (p : PageP)
    (rest : List PageP) :
    listFrom fid mr idx (p :: rest) =
      (match (pageAttempts fid p.sched 0 mr).1 with
       | .error e =>
         ⟨.error e,
           List.replicate (pageAttempts fid p.sched 0 mr).2.1
             (listRequest fid (if idx = 0 then none else some idx)),
           (pageAttempts fid p.sched 0 mr).2.2⟩
       | .ok _ =>
         match itemsOfFiles p.files with
         | .error e =>
           ⟨.error e,
             List.replicate (pageAttempts fid p.sched 0 mr).2.1
               (listRequest fid (if idx = 0 then none else some idx)),
             (pageAttempts fid p.sched 0 mr).2.2⟩
         | .ok its =>
           ⟨(listFrom fid mr (idx + 1) rest).result.map (fun l => its ++ l),
             List.replicate (pageAttempts fid p.sched 0 mr).2.1
               (listRequest fid (if idx = 0 then none else some idx)) ++
               (listFrom fid mr (idx + 1) rest).requests,
             (pageAttempts fid p.sched 0 mr).2.2 ++
               (listFrom fid mr (idx + 1) rest).sleepBounds⟩) := by
  conv_lhs => rw [listFrom]
  cases (pageAttempts fid p.sched 0 mr).1 with
  | error e => rfl
  | ok u =>
    cases u
    cases itemsOfFiles p.files with
    | error e => rfl
    | ok its => rfl

theorem listFrom_ok (fid : String) (mr : Nat) :
    ∀ idx pages its, (listFrom fid mr idx pages).result = .ok its →
      itemsOfFiles (filesOf pages) = .ok its := by
  intro idx pages
  induction pages generalizing idx with
  | nil =>
    intro its h
    rw [listFrom_nil] at h
    cases h
    rfl
  | cons p rest ih =>
    intro its h
    rw [listFrom_cons] at h
    cases hatt : (pageAttempts fid p.sched 0 mr).1 with
    | error e => rw [hatt] at h; exact absurd h (by simp)
    | ok u =>
      cases u
      rw [hatt] at h
      cases hpage : itemsOfFiles p.files with
      | error e => rw [hpage] at h; exact absurd h (by simp)
      | ok its1 =>
        rw [hpage] at h
        simp only at h
        cases hrest : (listFrom fid mr (idx + 1) rest).result with
        | error e => rw [hrest] at h; exact absurd h (by simp [Except.map])
        | ok its2 =>
          rw [hrest] at h
          simp only [Except.map, Except.ok.injEq] at h
          subst h
          show itemsOfFiles (p.files ++ filesOf rest) = _
          rw [itemsOfFiles_append, hpage, ih (idx + 1) its2 hrest]

theorem pageAttempts_ok_calls_pos (fid : String) (sched : Nat → Option Nat) :
    ∀ a r, (pageAttempts fid sched a r).1 = .ok () →
      1 ≤ (pageAttempts fid sched a r).2.1 := by
  intro a r
  induction r generalizing a with
  | zero => intro h; exact absurd h (by simp [pageAttempts_zero])
  | succ r ih =>
    cases h : sched a with
    | none =>
      rw [pageAttempts_succ_ok fid r h]
      intro _
      exact Nat.le_refl 1
    | some s =>
      by_cases hs : s = 429
      · subst hs
        rw [pageAttempts_succ_429 fid r h]
        intro _
        exact Nat.succ_le_succ (Nat.zero_le _)
      · rw [pageAttempts_succ_err fid r h hs]
        intro hc
        exact absurd hc (by simp)

theorem listFrom_ok_tokens (fid : String) (mr : Nat) :
    ∀ idx pages its, (listFrom fid mr idx pages).result = .ok its →
      ∀ i, i < pages.length →
        (if idx + i = 0 then none else some (idx + i)) ∈
          (listFrom fid mr idx pages).requests.map (fun rq => rq.pageToken) := by
  intro idx pages
  induction pages generalizing idx with
  | nil =>
    intro its _ i hi
    exact absurd hi (Nat.not_lt_zero i)
  | cons p rest ih =>
    intro its h i hi
    rw [listFrom_cons] at h ⊢
    cases hatt : (pageAttempts fid p.sched 0 mr).1 with
    | error e => rw [hatt] at h; exact absurd h (by simp)
    | ok u =>
      cases u
      rw [hatt] at h
      cases hpage : itemsOfFiles p.files with
      | error e => rw [hpage] at h; exact absurd h (by simp)
      | ok its1 =>
        rw [hpage] at h
        simp only at h
        cases hrest : (listFrom fid mr (idx + 1) rest).result with
        | error e => rw [hrest] at h; exact absurd h (by simp [Except.map])
        | ok its2 =>
          have hcalls : 1 ≤ (pageAttempts fid p.sched 0 mr).2.1 :=
            pageAttempts_ok_calls_pos fid p.sched 0 mr hatt
          cases i with
          | zero =>
            show (if idx + 0 = 0 then none else some (idx + 0)) ∈
              (List.replicate (pageAttempts fid p.sched 0 mr).2.1
                (listRequest fid (if idx = 0 then none else some idx)) ++
                (listFrom fid mr (idx + 1) rest).requests).map
                (fun rq => rq.pageToken)
            rw [List.map_append, List.mem_append]
            left
            simp only [Nat.add_zero]
            rw [List.map_replicate]
            exact List.mem_replicate.2 ⟨by omega, rfl⟩
          | succ i =>
            show (if idx + (i + 1) = 0 then none else some (idx + (i + 1))) ∈
              (List.replicate (pageAttempts fid p.sched 0 mr).2.1
                (listRequest fid (if idx = 0 then none else some idx)) ++
                (listFrom fid mr (idx + 1) rest).requests).map
                (fun rq => rq.pageToken)
            rw [List.map_append, List.mem_append]
            right
            have hmem := ih (idx + 1) its2 hrest i (Nat.lt_of_succ_lt_succ hi)
            rwa [show idx + 1 + i = idx + (i + 1) by omega] at hmem

/-! ### Lemmas about the tree walker -/

theorem get_metadata_zero (drive : Drive) (fid pp : String)
    (sdid : Option String) : get_metadata drive 0 fid pp sdid = none := rfl

theorem get_metadata_succ (drive : Drive) (fuel : Nat) (fid pp : String)
    (sdid : Option String) :
    get_metadata drive (fuel + 1) fid pp sdid =
      (match (get_folder_contents fid sdid 7 (drive fid)).result with
       | .error e => some (.error e)
       | .ok contents =>
         contents.foldr (walkStep drive fuel sdid pp) (some (.ok []))) := by
  conv_lhs => rw [get_metadata]
  cases (get_folder_contents fid sdid 7 (drive fid)).result with
  | error e => rfl
  | ok contents => rfl

theorem reachableFiles_zero (drive : Drive) (fid : String) :
    reachableFiles drive 0 fid = none := rfl

theorem reachableFiles_succ (drive : Drive) (fuel : Nat) (fid : String) :
    reachableFiles drive (fuel + 1) fid =
      (filesOf (drive fid)).foldr (reachStep drive fuel) (some []) := by
  conv_lhs => rw [reachableFiles]
  rfl

theorem walkStep_folder {item : Item} (drive : Drive) (fuel : Nat)
    (sdid : Option String) (pp : String)
    (acc : Option (Except PyError (List Row)))
    (hf : item.is_folder = true) :
    walkStep drive fuel sdid pp item acc =
      (match get_metadata drive fuel item.id (joinPath pp item.name) sdid with
       | none => none
       | some (.error e) => some (.error e)
       | some (.ok subRows) =>
         match acc with
         | none => none
         | some (.error e) => some (.error e)
         | some (.ok restRows) =>
           some (.ok ({ toItem := item, path := joinPath pp item.name, link := create_share_link item } :: (subRows ++ restRows)))) := by
  unfold walkStep
  rw [hf]
  rfl

theorem walkStep_file {item : Item} (drive : Drive) (fuel : Nat)
    (sdid : Option String) (pp : String)
    (acc : Option (Except PyError (List Row)))
    (hf : item.is_folder = false) :
    walkStep drive fuel sdid pp item acc =
      (match acc with
       | none => none
       | some (.error e) => some (.error e)
       | some (.ok restRows) =>
         some (.ok ({ toItem := item, path := joinPath pp item.name, link := create_share_link item } :: restRows))) := by
  unfold walkStep
  rw [hf]
  cases acc with
  | none => rfl
  | some a =>
    cases a with
    | error e => rfl
    | ok restRows => rfl

theorem reachStep_folder {f : DriveFile} (drive : Drive) (fuel : Nat)
    (acc : Option (List DriveFile)) (hf : is_folder_of f = true) :
    reachStep drive fuel f acc =
      (match reachableFiles drive fuel f.id with
       | none => none
       | some sub =>
         match acc with
         | none => none
         | some rest => some (f :: (sub ++ rest))) := by
  unfold reachStep
  rw [hf]
  rfl

theorem reachStep_file {f : DriveFile} (drive : Drive) (fuel : Nat)
    (acc : Option (List DriveFile)) (hf : is_folder_of f = false) :
    reachStep drive fuel f acc =
      (match acc with
       | none => none
       | some rest => some (f :: rest)) := by
  unfold reachStep
  rw [hf]
  cases acc with
  | none => rfl
  | some rest => rfl

theorem walk_reach_aux (drive : Drive) (fuel : Nat) (sdid : Option String)
    (ih : ∀ fid pp rows, get_metadata drive fuel fid pp sdid = some (.ok rows) →
      ∃ l, reachableFiles drive fuel fid = some l ∧
        rows.map (fun r => r.id) = l.map (fun g => g.id)) :
    ∀ fs contents pp rows, itemsOfFiles fs = .ok contents →
      contents.foldr (walkStep drive fuel sdid pp) (some (.ok [])) =
        some (.ok rows) →
      ∃ l, fs.foldr (reachStep drive fuel) (some []) = some l ∧
        rows.map (fun r => r.id) = l.map (fun g => g.id) := by
  intro fs
  induction fs with
  | nil =>
    intro contents pp rows hc hw
    simp only [itemsOfFiles, Except.ok.injEq] at hc
    subst hc
    simp only [List.foldr_nil, Option.some.injEq, Except.ok.injEq] at hw
    subst hw
    exact ⟨[], rfl, rfl⟩
  | cons f fs ihl =>
    intro contents pp rows hc hw
    rw [itemsOfFiles_cons] at hc
    cases hi : itemOfFile f with
    | error e => rw [hi] at hc; exact absurd hc (by simp)
    | ok item =>
      rw [hi] at hc
      cases hr : itemsOfFiles fs with
      | error e => rw [hr] at hc; exact absurd hc (by simp)
      | ok rest =>
        rw [hr] at hc
        simp only [Except.ok.injEq] at hc
        subst hc
        rw [List.foldr_cons] at hw
        obtain ⟨g1, g2, g3, g4, g5⟩ := itemOfFile_ok hi
        by_cases hf : item.is_folder = true
        · rw [walkStep_folder drive fuel sdid pp _ hf] at hw
          cases hsub :
              get_metadata drive fuel item.id (joinPath pp item.name) sdid with
          | none => rw [hsub] at hw; exact absurd hw (by simp)
          | some se =>
            cases se with
            | error e => rw [hsub] at hw; exact absurd hw (by simp)
            | ok subRows =>
              rw [hsub] at hw
              cases hacc : List.foldr (walkStep drive fuel sdid pp)
                  (some (.ok [])) rest with
              | none => rw [hacc] at hw; exact absurd hw (by simp)
              | some ae =>
                cases ae with
                | error e => rw [hacc] at hw; exact absurd hw (by simp)
                | ok restRows =>
                  rw [hacc] at hw
                  simp only [Option.some.injEq, Except.ok.injEq] at hw
                  subst hw
                  obtain ⟨lsub, hlsub, hmsub⟩ :=
                    ih item.id (joinPath pp item.name) subRows hsub
                  obtain ⟨lrest, hlrest, hmrest⟩ := ihl rest pp restRows hr hacc
                  refine ⟨f :: (lsub ++ lrest), ?_, ?_⟩
                  · rw [List.foldr_cons,
                      reachStep_folder drive fuel _ (by rw [← g4]; exact hf),
                      ← g1, hlsub, hlrest]
                  · simp only [List.map_cons, List.map_append]
                    rw [← hmsub, ← hmrest]
                    exact congrArg (fun x => x :: (subRows.map (fun r => r.id) ++
                      restRows.map (fun r => r.id))) g1
        · have hf2 : item.is_folder = false := by
            revert hf
            cases item.is_folder <;> simp
          rw [walkStep_file drive fuel sdid pp _ hf2] at hw
          cases hacc : List.foldr (walkStep drive fuel sdid pp)
              (some (.ok [])) rest with
          | none => rw [hacc] at hw; exact absurd hw (by simp)
          | some ae =>
            cases ae with
            | error e => rw [hacc] at hw; exact absurd hw (by simp)
            | ok restRows =>
              rw [hacc] at hw
              simp only [Option.some.injEq, Except.ok.injEq] at hw
              subst hw
              obtain ⟨lrest, hlrest, hmrest⟩ := ihl rest pp restRows hr hacc
              refine ⟨f :: lrest, ?_, ?_⟩
              · rw [List.foldr_cons,
                  reachStep_file drive fuel _ (by rw [← g4]; exact hf2), hlrest]
              · simp only [List.map_cons]
                rw [← hmrest]
                exact congrArg (fun x => x :: restRows.map (fun r => r.id)) g1

theorem walk_reach (drive : Drive) :
    ∀ fuel fid pp sdid rows,
      get_metadata drive fuel fid pp sdid = some (.ok rows) →
      ∃ l, reachableFiles drive fuel fid = some l ∧
        rows.map (fun r => r.id) = l.map (fun g => g.id) := by
  intro fuel
  induction fuel with
  | zero =>
    intro fid pp sdid rows h
    exact absurd h (by simp [get_metadata_zero])
  | succ fuel ih =>
    intro fid pp sdid rows h
    rw [get_metadata_succ] at h
    rw [reachableFiles_succ]
    cases hres : (get_folder_contents fid sdid 7 (drive fid)).result with
    | error e => rw [hres] at h; exact absurd h (by simp)
    | ok contents =>
      rw [hres] at h
      have hitems : itemsOfFiles (filesOf (drive fid)) = .ok contents :=
        listFrom_ok fid 7 0 (drive fid) contents hres
      exact walk_reach_aux drive fuel sdid
        (fun fid2 pp2 rows2 => ih fid2 pp2 sdid rows2)
        (filesOf (drive fid)) contents pp rows hitems h

theorem reachableParents_zero (drive : Drive) (fid pp : String) :
    reachableParents drive 0 fid pp = none := rfl

theorem reachableParents_succ (drive : Drive) (fuel : Nat) (fid pp : String) :
    reachableParents drive (fuel + 1) fid pp =
      (filesOf (drive fid)).foldr (parentStep drive fuel pp) (some []) := by
  conv_lhs => rw [reachableParents]
  rfl

theorem parentStep_folder {f : DriveFile} (drive : Drive) (fuel : Nat)
    (pp : String) (acc : Option (List (DriveFile × String)))
    (hf : is_folder_of f = true) :
    parentStep drive fuel pp f acc =
      (match reachableParents drive fuel f.id (joinPath pp f.name) with
       | none => none
       | some sub =>
         match acc with
         | none => none
         | some rest => some ((f, pp) :: (sub ++ rest))) := by
  unfold parentStep
  rw [hf]
  rfl

theorem parentStep_file {f : DriveFile} (drive : Drive) (fuel : Nat)
    (pp : String) (acc : Option (List (DriveFile × String)))
    (hf : is_folder_of f = false) :
    parentStep drive fuel pp f acc =
      (match acc with
       | none => none
       | some rest => some ((f, pp) :: rest)) := by
  unfold parentStep
  rw [hf]
  cases acc with
  | none => rfl
  | some rest => rfl

theorem walk_parents_aux (drive : Drive) (fuel : Nat) (sdid : Option String)
    (ih : ∀ fid pp rows,
      get_metadata drive fuel fid pp sdid = some (.ok rows) →
      ∃ l, reachableParents drive fuel fid pp = some l ∧
        rows.map (fun r => (r.id, r.name, r.path)) =
          l.map (fun e => (e.1.id, e.1.name, joinPath e.2 e.1.name))) :
    ∀ fs contents pp rows, itemsOfFiles fs = .ok contents →
      contents.foldr (walkStep drive fuel sdid pp) (some (.ok [])) =
        some (.ok rows) →
      ∃ l, fs.foldr (parentStep drive fuel pp) (some []) = some l ∧
        rows.map (fun r => (r.id, r.name, r.path)) =
          l.map (fun e => (e.1.id, e.1.name, joinPath e.2 e.1.name)) := by
  intro fs
  induction fs with
  | nil =>
    intro contents pp rows hc hw
    simp only [itemsOfFiles, Except.ok.injEq] at hc
    subst hc
    simp only [List.foldr_nil, Option.some.injEq, Except.ok.injEq] at hw
    subst hw
    exact ⟨[], rfl, rfl⟩
  | cons f fs ihl =>
    intro contents pp rows hc hw
    rw [itemsOfFiles_cons] at hc
    cases hi : itemOfFile f with
    | error e => rw [hi] at hc; exact absurd hc (by simp)
    | ok item =>
      rw [hi] at hc
      cases hr : itemsOfFiles fs with
      | error e => rw [hr] at hc; exact absurd hc (by simp)
      | ok rest =>
        rw [hr] at hc
        simp only [Except.ok.injEq] at hc
        subst hc
        rw [List.foldr_cons] at hw
        obtain ⟨g1, g2, g3, g4, g5⟩ := itemOfFile_ok hi
        by_cases hf : item.is_folder = true
        · rw [walkStep_folder drive fuel sdid pp _ hf] at hw
          cases hsub :
              get_metadata drive fuel item.id (joinPath pp item.name) sdid with
          | none => rw [hsub] at hw; exact absurd hw (by simp)
          | some se =>
            cases se with
            | error e => rw [hsub] at hw; exact absurd hw (by simp)
            | ok subRows =>
              rw [hsub] at hw
              cases hacc : List.foldr (walkStep drive fuel sdid pp)
                  (some (.ok [])) rest with
              | none => rw [hacc] at hw; exact absurd hw (by simp)
              | some ae =>
                cases ae with
                | error e => rw [hacc] at hw; exact absurd hw (by simp)
                | ok restRows =>
                  rw [hacc] at hw
                  simp only [Option.some.injEq, Except.ok.injEq] at hw
                  subst hw
                  obtain ⟨lsub, hlsub, hmsub⟩ :=
                    ih item.id (joinPath pp item.name) subRows hsub
                  obtain ⟨lrest, hlrest, hmrest⟩ := ihl rest pp restRows hr hacc
                  refine ⟨(f, pp) :: (lsub ++ lrest), ?_, ?_⟩
                  · rw [List.foldr_cons,
                      parentStep_folder drive fuel pp _ (by rw [← g4]; exact hf),
                      ← g1, ← g2, hlsub, hlrest]
                  · simp only [List.map_cons, List.map_append]
                    rw [← hmsub, ← hmrest]
                    refine congrArg₂ List.cons ?_ rfl
                    show (item.id, item.name, joinPath pp item.name) =
                      (f.id, f.name, joinPath pp f.name)
                    rw [g1, g2]
        · have hf2 : item.is_folder = false := by
            revert hf
            cases item.is_folder <;> simp
          rw [walkStep_file drive fuel sdid pp _ hf2] at hw
          cases hacc : List.foldr (walkStep drive fuel sdid pp)
              (some (.ok [])) rest with
          | none => rw [hacc] at hw; exact absurd hw (by simp)
          | some ae =>
            cases ae with
            | error e => rw [hacc] at hw; exact absurd hw (by simp)
            | ok restRows =>
              rw [hacc] at hw
              simp only [Option.some.injEq, Except.ok.injEq] at hw
              subst hw
              obtain ⟨lrest, hlrest, hmrest⟩ := ihl rest pp restRows hr hacc
              refine ⟨(f, pp) :: lrest, ?_, ?_⟩
              · rw [List.foldr_cons,
                  parentStep_file drive fuel pp _ (by rw [← g4]; exact hf2),
                  hlrest]
              · simp only [List.map_cons]
                rw [← hmrest]
                refine congrArg₂ List.cons ?_ rfl
                show (item.id, item.name, joinPath pp item.name) =
                  (f.id, f.name, joinPath pp f.name)
                rw [g1, g2]

theorem walk_parents (drive : Drive) :
    ∀ fuel fid pp sdid rows,
      get_metadata drive fuel fid pp sdid = some (.ok rows) →
      ∃ l, reachableParents drive fuel fid pp = some l ∧
        rows.map (fun r => (r.id, r.name, r.path)) =
          l.map (fun e => (e.1.id, e.1.name, joinPath e.2 e.1.name)) := by
  intro fuel
  induction fuel with
  | zero =>
    intro fid pp sdid rows h
    exact absurd h (by simp [get_metadata_zero])
  | succ fuel ih =>
    intro fid pp sdid rows h
    rw [get_metadata_succ] at h
    rw [reachableParents_succ]
    cases hres : (get_folder_contents fid sdid 7 (drive fid)).result with
    | error e => rw [hres] at h; exact absurd h (by simp)
    | ok contents =>
      rw [hres] at h
      have hitems : itemsOfFiles (filesOf (drive fid)) = .ok contents :=
        listFrom_ok fid 7 0 (drive fid) contents hres
      exact walk_parents_aux drive fuel sdid
        (fun fid2 pp2 rows2 => ih fid2 pp2 sdid rows2)
        (filesOf (drive fid)) contents pp rows hitems h

theorem walker_sdid_aux (drive : Drive) (fuel : Nat) (s1 s2 : Option String)
    (ih : ∀ fid pp,
      get_metadata drive fuel fid pp s1 = get_metadata drive fuel fid pp s2) :
    ∀ (contents : List Item) (pp : String),
      contents.foldr (walkStep drive fuel s1 pp) (some (.ok [])) =
        contents.foldr (walkStep drive fuel s2 pp) (some (.ok [])) := by
  intro contents pp
  induction contents with
  | nil => rfl
  | cons item rest ihl =>
    rw [List.foldr_cons, List.foldr_cons, ihl]
    simp only [walkStep]
    rw [ih item.id (joinPath pp item.name)]

theorem get_metadata_sdid (drive : Drive) :
    ∀ fuel fid pp s1 s2,
      get_metadata drive fuel fid pp s1 = get_metadata drive fuel fid pp s2 := by
  intro fuel
  induction fuel with
  | zero => intro fid pp s1 s2; rfl
  | succ fuel ih =>
    intro fid pp s1 s2
    rw [get_metadata_succ, get_metadata_succ]
    have hgc : get_folder_contents fid s1 7 (drive fid) =
        get_folder_contents fid s2 7 (drive fid) := rfl
    rw [hgc]
    cases hres : (get_folder_contents fid s2 7 (drive fid)).result with
    | error e => rfl
    | ok contents =>
      exact walker_sdid_aux drive fuel s1 s2
        (fun fid2 pp2 => ih fid2 pp2 s1 s2) contents pp

/-! ### Index-mode lemmas and run-level abort lemmas -/

theorem itemOfFileX_keyErr {f : DriveFile} (howners : f.owners ≠ some [])
    (hlink : f.webViewLink = none) :
    itemOfFileX f = .error (.KeyError "webViewLink") := by
  obtain ⟨w, hw⟩ := owner_of_ok howners
  unfold itemOfFileX
  rw [hw, hlink]
  rfl

theorem itemsOfFilesX_insert_err {e : PyError} :
    ∀ fs1 pre (f : DriveFile) fs2, itemsOfFilesX fs1 = .ok pre →
      itemOfFileX f = .error e →
      itemsOfFilesX (fs1 ++ f :: fs2) = .error e := by
  intro fs1
  induction fs1 with
  | nil =>
    intro pre f fs2 _ hf
    rw [List.nil_append, itemsOfFilesX_cons, hf]
  | cons g gs ih =>
    intro pre f fs2 hpre hf
    rw [itemsOfFilesX_cons] at hpre
    cases hg : itemOfFileX g with
    | error e2 => rw [hg] at hpre; exact absurd hpre (by simp)
    | ok i =>
      rw [hg] at hpre
      cases hgs : itemsOfFilesX gs with
      | error e2 => rw [hgs] at hpre; exact absurd hpre (by simp)
      | ok rest =>
        rw [List.cons_append, itemsOfFilesX_cons, hg, ih rest f fs2 hgs hf]

theorem listFromX_cons (fid : String) (mr idx : Nat) (p : PageP)
    (rest : List PageP) :
    listFromX fid mr idx (p :: rest) =
      (match (pageAttempts fid p.sched 0 mr).1 with
       | .error e =>
         ⟨.error e,
           List.replicate (pageAttempts fid p.sched 0 mr).2.1
             (listRequestX fid (if idx = 0 then none else some idx)),
           (pageAttempts fid p.sched 0 mr).2.2⟩
       | .ok _ =>
         match itemsOfFilesX p.files with
         | .error e =>
           ⟨.error e,
             List.replicate (pageAttempts fid p.sched 0 mr).2.1
               (listRequestX fid (if idx = 0 then none else some idx)),
             (pageAttempts fid p.sched 0 mr).2.2⟩
         | .ok its =>
           ⟨(listFromX fid mr (idx + 1) rest).result.map (fun l => its ++ l),
             List.replicate (pageAttempts fid p.sched 0 mr).2.1
               (listRequestX fid (if idx = 0 then none else some idx)) ++
               (listFromX fid mr (idx + 1) rest).requests,
             (pageAttempts fid p.sched 0 mr).2.2 ++
               (listFromX fid mr (idx + 1) rest).sleepBounds⟩) := by
  conv_lhs => rw [listFromX]
  cases (pageAttempts fid p.sched 0 mr).1 with
  | error e => rfl
  | ok u =>
    cases u
    cases itemsOfFilesX p.files with
    | error e => rfl
    | ok its => rfl

theorem get_folder_metadata_pageErr {fid : String} {mr : Nat}
    {sched : Nat → Option Nat} {files : List DriveFile} {e : PyError}
    (rest : List PageP) (hok : (pageAttempts fid sched 0 mr).1 = .ok ())
    (herr : itemsOfFilesX files = .error e) :
    (get_folder_metadata fid mr (⟨sched, files⟩ :: rest)).result = .error e := by
  unfold get_folder_metadata
  rw [listFromX_cons]
  rw [show (⟨sched, files⟩ : PageP).sched = sched from rfl,
    show (⟨sched, files⟩ : PageP).files = files from rfl, hok, herr]

theorem run_directory_abort {drive : Drive} {fuel : Nat}
    {rid rname : String} {sdid : Option String} {e : PyError}
    (h : get_metadata drive fuel rid rname sdid = some (.error e)) :
    run_directory drive fuel rid rname sdid = some none := by
  unfold run_directory
  rw [h]

theorem run_index_abort {drive : Drive} {fuel : Nat} {rid rname : String}
    {e : PyError}
    (h : traverse_folder drive fuel rid rname = some (.error e)) :
    run_index drive fuel rid rname = some none := by
  unfold run_index
  rw [h]

theorem traverse_folder_zero (drive : Drive) (fid pp : String) :
    traverse_folder drive 0 fid pp = none := rfl

theorem traverse_folder_succ_err (drive : Drive) (fuel : Nat)
    (fid pp : String) {e : PyError}
    (h : (get_folder_metadata fid 7 (drive fid)).result = .error e) :
    traverse_folder drive (fuel + 1) fid pp = some (.error e) := by
  conv_lhs => rw [traverse_folder]
  rw [h]

/-! ### Claim theorems -/

/-- C1 counterexample: with the default `max_retries = 7` and a page
whose first seven attempts are rate-limited but whose eighth attempt
(index 7) would succeed, the lister raises the fatal retries-exceeded
error after exactly 7 remote calls.  The claim predicts up to
`max_retries` retries, i.e. `max_retries + 1 = 8` attempts in total,
under which this page would have succeeded. -/
theorem c1_counterexample :
    (fun k => if k < 7 then some 429 else none) 7 = (none : Option Nat) ∧
    (get_folder_contents "F" none 7
        [⟨fun k => if k < 7 then some 429 else none, []⟩]).result =
      .error (.RetriesExhausted "F") ∧
    (get_folder_contents "F" none 7
        [⟨fun k => if k < 7 then some 429 else none, []⟩]).requests.length =
      7 := by
  refine ⟨rfl, ?_, ?_⟩ <;> decide

/-- C1 (amended): on repeated rate-limit failures a page request is
retried at most `max_retries - 1` times, so a page is attempted at most
`max_retries` times in total; when all `max_retries` attempts are
rate-limited, the listing fails by raising the fatal retries-exceeded
error for that folder (it is not silently skipped), after exactly
`max_retries` remote calls. -/
theorem c1_amended (fid : String) (sdid : Option String) (mr : Nat)
    (sched : Nat → Option Nat) (files : List DriveFile) (rest : List PageP) :
    (pageAttempts fid sched 0 mr).2.1 ≤ mr ∧
    ((∀ k, k < mr → sched k = some 429) →
      (get_folder_contents fid sdid mr (⟨sched, files⟩ :: rest)).result =
        .error (.RetriesExhausted fid) ∧
      (get_folder_contents fid sdid mr
          (⟨sched, files⟩ :: rest)).requests.length = mr) := by
  refine ⟨pageAttempts_calls_le fid sched 0 mr, fun h429 => ?_⟩
  have hpa := pageAttempts_all429 fid sched 0 mr
    (by intro k hk; simpa using h429 k hk)
  have h1 : (pageAttempts fid sched 0 mr).1 =
      .error (.RetriesExhausted fid) := by rw [hpa]
  have h2 : (pageAttempts fid sched 0 mr).2.1 = mr := by rw [hpa]
  constructor
  · unfold get_folder_contents
    rw [listFrom_cons, show (⟨sched, files⟩ : PageP).sched = sched from rfl,
      h1]
  · unfold get_folder_contents
    rw [listFrom_cons, show (⟨sched, files⟩ : PageP).sched = sched from rfl,
      h1]
    show (List.replicate (pageAttempts fid sched 0 mr).2.1
      (listRequest fid none)).length = mr
    rw [List.length_replicate, h2]

/-- C1 witness: the amended statement at the counterexample schedule. -/
theorem c1_witness :
    (pageAttempts "F" (fun k => if k < 7 then some 429 else none) 0 7).2.1 ≤
      7 ∧
    (get_folder_contents "F" none 7
        [⟨fun k => if k < 7 then some 429 else none, []⟩]).result =
      .error (.RetriesExhausted "F") ∧
    (get_folder_contents "F" none 7
        [⟨fun k => if k < 7 then some 429 else none, []⟩]).requests.length =
      7 :=
  ⟨(c1_amended "F" none 7 (fun k => if k < 7 then some 429 else none)
      [] []).1,
   ((c1_amended "F" none 7 (fun k => if k < 7 then some 429 else none)
      [] []).2 (by decide)).1,
   ((c1_amended "F" none 7 (fun k => if k < 7 then some 429 else none)
      [] []).2 (by decide)).2⟩

/-- C2: the backoff sleep before retry attempt `k` (0-indexed) is drawn
from `[0, min(2^k, 64))` seconds: the draw `jitter * max_sleep` with
`jitter ∈ [0,1)` lies in that half-open interval, and the `k`-th sleep
performed by the retry loop uses exactly the bound `min(2^k, 64)`;
moreover once `max_retries` rate-limited attempts have been made, the
retries-exceeded error is raised with no further remote call (the call
count stays `max_retries`). -/
theorem c2_backoff (jitter : ℚ) (k : Nat) (fid : String)
    (sched : Nat → Option Nat) (mr : Nat)
    (h0 : 0 ≤ jitter) (h1 : jitter < 1) :
    (0 ≤ exponential_backoff_time jitter k ∧
      exponential_backoff_time jitter k < (min (2 ^ k) 64 : Nat)) ∧
    (pageAttempts fid sched 0 mr).2.2 =
      (List.range' 0 (pageAttempts fid sched 0 mr).2.2.length).map
        backoffMax ∧
    ((pageAttempts fid sched 0 mr).1 = .error (.RetriesExhausted fid) →
      (pageAttempts fid sched 0 mr).2.1 = mr) := by
  refine ⟨⟨?_, ?_⟩, pageAttempts_sleeps fid sched 0 mr,
    pageAttempts_exhausted_calls fid sched 0 mr⟩
  · exact mul_nonneg h0 (by positivity)
  · have hb : 1 ≤ backoffMax k := le_min Nat.one_le_two_pow (by norm_num)
    have hpos : (0 : ℚ) < (backoffMax k : ℚ) := by exact_mod_cast hb
    calc jitter * (backoffMax k : ℚ)
        < 1 * (backoffMax k : ℚ) := mul_lt_mul_of_pos_right h1 hpos
      _ = ((min (2 ^ k) 64 : Nat) : ℚ) := one_mul _

/-- C2 witness: the interval and call-count facts at `jitter = 1/2`,
`k = 3`, and a schedule that rate-limits every attempt with
`max_retries = 2`. -/
theorem c2_witness :
    (0 ≤ exponential_backoff_time (1/2) 3 ∧
      exponential_backoff_time (1/2) 3 < (min (2 ^ 3) 64 : Nat)) ∧
    (pageAttempts "F" (fun _ => some 429) 0 2).2.2 =
      (List.range' 0
        (pageAttempts "F" (fun _ => some 429) 0 2).2.2.length).map
        backoffMax ∧
    ((pageAttempts "F" (fun _ => some 429) 0 2).1 =
        .error (.RetriesExhausted "F") →
      (pageAttempts "F" (fun _ => some 429) 0 2).2.1 = 2) :=
  c2_backoff (1/2) 3 "F" (fun _ => some 429) 2 (by decide) (by decide)

/-- C3: whenever the directory-mode walker completes without error, its
accumulator holds exactly one record per file or folder reachable from
the root (the root itself excluded), in depth-first listing order: the
row identifiers agree position by position with the reference
depth-first enumeration `reachableFiles`, in which each child precedes
its own subtree and a folder's entire subtree precedes its next
sibling. -/
theorem c3_depth_first (drive : Drive) (fuel : Nat) (fid pp : String)
    (sdid : Option String) (rows : List Row)
    (h : get_metadata drive fuel fid pp sdid = some (.ok rows)) :
    ∃ l, reachableFiles drive fuel fid = some l ∧
      rows.map (fun r => r.id) = l.map (fun g => g.id) ∧
      rows.length = l.length := by
  obtain ⟨l, h1, h2⟩ := walk_reach drive fuel fid pp sdid rows h
  refine ⟨l, h1, h2, ?_⟩
  have := congrArg List.length h2
  simpa using this

/-- C3 witness: the three-node sample tree yields exactly its three
reachable items, in depth-first order. -/
theorem c3_witness :
    ∃ l, reachableFiles sampleDrive 3 "root" = some l ∧
      sampleRows.map (fun r => r.id) = l.map (fun g => g.id) ∧
      sampleRows.length = l.length :=
  c3_depth_first sampleDrive 3 "root" "R" none sampleRows (by decide)

/-- C4: every record the directory-mode walker produces has
`path = join(parent_path, name)` with respect to its ACTUAL parent:
position by position, the rows agree with the reference depth-first
enumeration `reachableParents`, in which each entry carries the path of
the folder that listed it — the root label for the root's direct
children, and the parent folder's own computed path otherwise — and
each record's `path` is exactly the join of that parent path with the
record's own `name`. -/
theorem c4_paths (drive : Drive) (fuel : Nat) (fid pp : String)
    (sdid : Option String) (rows : List Row)
    (h : get_metadata drive fuel fid pp sdid = some (.ok rows)) :
    ∃ l, reachableParents drive fuel fid pp = some l ∧
      rows.map (fun r => (r.id, r.name, r.path)) =
        l.map (fun e => (e.1.id, e.1.name, joinPath e.2 e.1.name)) :=
  walk_parents drive fuel fid pp sdid rows h

/-- C4 witness: on the three-node sample tree the rows' paths are the
joins of their actual parents' paths with their names — `a.txt` and `B`
join the root label `R`, while `c.txt` joins its parent folder's path
`R/B`. -/
theorem c4_witness :
    ∃ l, reachableParents sampleDrive 3 "root" "R" = some l ∧
      sampleRows.map (fun r => (r.id, r.name, r.path)) =
        l.map (fun e => (e.1.id, e.1.name, joinPath e.2 e.1.name)) :=
  c4_paths sampleDrive 3 "root" "R" none sampleRows (by decide)

/-- C5: when a listing succeeds, the returned sequence is exactly the
concatenation of all pages' items in order — no page skipped or
duplicated, also when individual pages succeeded only after rate-limit
retries — and the lister requested every page: the token of each page
(`none` for the first, the continuation token otherwise) appears among
the issued requests, the loop stopping only after the final page, whose
response carries no token. -/
theorem c5_pagination (fid : String) (sdid : Option String) (mr : Nat)
    (pages : List PageP) (its : List Item)
    (h : (get_folder_contents fid sdid mr pages).result = .ok its) :
    itemsOfFiles (filesOf pages) = .ok its ∧
    ∀ i, i < pages.length →
      (if i = 0 then none else some i) ∈
        (get_folder_contents fid sdid mr pages).requests.map
          (fun rq => rq.pageToken) := by
  refine ⟨listFrom_ok fid mr 0 pages its h, fun i hi => ?_⟩
  have := listFrom_ok_tokens fid mr 0 pages its h i hi
  simpa using this

/-- C5 witness: a two-page listing whose first page succeeds on the
third attempt still returns both pages' items in order, and the second
page's continuation token was requested. -/
theorem c5_witness :
    itemsOfFiles (filesOf [⟨fun k => if k < 2 then some 429 else none,
        [fileA]⟩, ⟨fun _ => none, [fileC]⟩]) =
      .ok [⟨"idA", "a.txt", "text/plain", false, 12207/25, "Alice", "2020",
        "2021"⟩, ⟨"idC", "c.txt", "text/plain", false, 0, "", "", ""⟩] ∧
    (if 1 = 0 then none else some 1) ∈
      (get_folder_contents "F" none 7
        [⟨fun k => if k < 2 then some 429 else none, [fileA]⟩,
         ⟨fun _ => none, [fileC]⟩]).requests.map (fun rq => rq.pageToken) :=
  ⟨(c5_pagination "F" none 7
      [⟨fun k => if k < 2 then some 429 else none, [fileA]⟩,
       ⟨fun _ => none, [fileC]⟩]
      [⟨"idA", "a.txt", "text/plain", false, 12207/25, "Alice", "2020",
        "2021"⟩, ⟨"idC", "c.txt", "text/plain", false, 0, "", "", ""⟩]
      (by decide)).1,
   (c5_pagination "F" none 7
      [⟨fun k => if k < 2 then some 429 else none, [fileA]⟩,
       ⟨fun _ => none, [fileC]⟩]
      [⟨"idA", "a.txt", "text/plain", false, 12207/25, "Alice", "2020",
        "2021"⟩, ⟨"idC", "c.txt", "text/plain", false, 0, "", "", ""⟩]
      (by decide)).2 1 (by decide)⟩

/-- C6: a non-rate-limit HTTP error on a page request is never retried:
if attempt `j` (reached after `j` rate-limited attempts) fails with a
status other than 429, the loop raises exactly that error after `j + 1`
remote calls, the listing for the folder propagates it, and an erroring
walk makes the entrypoint write no output file (accumulated rows are
discarded). -/
theorem c6_non429_aborts (fid : String) (sdid : Option String)
    (sched : Nat → Option Nat) (mr j s : Nat) (files : List DriveFile)
    (rest : List PageP) (drive : Drive) (fuel : Nat) (rid rname : String)
    (sdid2 : Option String) (e : PyError)
    (hj : j < mr) (h429 : ∀ i, i < j → sched i = some 429)
    (herr : sched j = some s) (hs : s ≠ 429) :
    pageAttempts fid sched 0 mr =
      (.error (.HttpError s), j + 1, (List.range' 0 j).map backoffMax) ∧
    (get_folder_contents fid sdid mr (⟨sched, files⟩ :: rest)).result =
      .error (.HttpError s) ∧
    (get_metadata drive fuel rid rname sdid2 = some (.error e) →
      run_directory drive fuel rid rname sdid2 = some none) := by
  have hpa := pageAttempts_nonRateLimit fid sched 0 j mr s hj
    (by intro k hk; simpa using h429 k hk) (by simpa using herr) hs
  refine ⟨hpa, ?_, fun h => run_directory_abort h⟩
  have h1 : (pageAttempts fid sched 0 mr).1 = .error (.HttpError s) := by
    rw [hpa]
  unfold get_folder_contents
  rw [listFrom_cons, show (⟨sched, files⟩ : PageP).sched = sched from rfl, h1]

/-- C6 witness: one rate-limited attempt followed by a 500 error aborts
after two calls, and a run over a drive whose root listing fails with
500 produces no output file. -/
theorem c6_witness :
    pageAttempts "F"
        (fun k => if k = 0 then some 429 else if k = 1 then some 500
          else none) 0 7 =
      (.error (.HttpError 500), 2, (List.range' 0 1).map backoffMax) ∧
    (get_folder_contents "F" none 7
        [⟨fun k => if k = 0 then some 429 else if k = 1 then some 500
          else none, []⟩]).result = .error (.HttpError 500) ∧
    run_directory (fun _ => [⟨fun _ => some 500, []⟩]) 1 "root" "R" none =
      some none :=
  ⟨(c6_non429_aborts "F" none
      (fun k => if k = 0 then some 429 else if k = 1 then some 500 else none)
      7 1 500 [] []
      (fun _ => [⟨fun _ => some 500, []⟩]) 1 "root" "R" none
      (.HttpError 500) (by decide) (by decide) (by decide) (by decide)).1,
   (c6_non429_aborts "F" none
      (fun k => if k = 0 then some 429 else if k = 1 then some 500 else none)
      7 1 500 [] []
      (fun _ => [⟨fun _ => some 500, []⟩]) 1 "root" "R" none
      (.HttpError 500) (by decide) (by decide) (by decide) (by decide)).2.1,
   (c6_non429_aborts "F" none
      (fun k => if k = 0 then some 429 else if k = 1 then some 500 else none)
      7 1 500 [] []
      (fun _ => [⟨fun _ => some 500, []⟩]) 1 "root" "R" none
      (.HttpError 500) (by decide) (by decide) (by decide) (by decide)).2.2
      (by decide)⟩

/-- C7: for every successfully built item, `size_kb` is `0` when the
item is a folder, `round(size_bytes / 1024, 2)` (two-decimal rounding)
when it is a file, and `0` when the remote omitted the size field
(then `size_bytes` defaults to `0`). -/
theorem c7_size_kb (f : DriveFile) (item : Item)
    (h : itemOfFile f = .ok item) :
    (is_folder_of f = true → item.size_kb = 0) ∧
    (is_folder_of f = false →
      item.size_kb = round2 ((f.size.getD 0 : ℚ) / 1024)) ∧
    (f.size = none → is_folder_of f = false → item.size_kb = 0) := by
  obtain ⟨_, _, _, _, g5⟩ := itemOfFile_ok h
  refine ⟨?_, ?_, ?_⟩
  · intro hf
    rw [g5]
    unfold size_kb_of
    rw [hf]
    rfl
  · intro hf
    rw [g5]
    unfold size_kb_of
    rw [hf]
    rfl
  · intro hn hf
    rw [g5]
    unfold size_kb_of
    rw [hf, hn]
    decide

/-- C7 witness: a 500000-byte file gets `size_kb = round2(500000/1024)`
(which is `488.28`), and a folder gets `0`. -/
theorem c7_witness :
    ({ id := "idA", name := "a.txt", type := "text/plain",
        is_folder := false, size_kb := 12207/25, owner := "Alice",
        created_date := "2020", last_modified_date := "2021" } : Item).size_kb =
      round2 ((fileA.size.getD 0 : ℚ) / 1024) ∧
    ({ id := "idB", name := "B",
        type := "application/vnd.google-apps.folder", is_folder := true,
        size_kb := 0, owner := "", created_date := "",
        last_modified_date := "" } : Item).size_kb = 0 :=
  ⟨(c7_size_kb fileA
      { id := "idA", name := "a.txt", type := "text/plain",
        is_folder := false, size_kb := 12207/25, owner := "Alice",
        created_date := "2020", last_modified_date := "2021" }
      (by decide)).2.1 (by decide),
   (c7_size_kb folderB
      { id := "idB", name := "B",
        type := "application/vnd.google-apps.folder", is_folder := true,
        size_kb := 0, owner := "", created_date := "",
        last_modified_date := "" }
      (by decide)).1 (by decide)⟩

/-- C8 counterexample: a listed file whose `owners` field is present but
an empty list does not get `owner = ""`: building its record raises
`IndexError` (the default `[{}]` applies only when the key is absent,
not when the list is empty). -/
theorem c8_counterexample :
    itemOfFile ⟨"idD", "d", "text/plain", none, some [], none, none, none⟩ =
      .error .IndexError := by decide

/-- C8 (amended): `owner` equals the display name of the first listed
owner, and equals the empty string when the `owners` field is absent or
when the first owner lacks a display name; when the `owners` field is
present but an empty list, the record builder instead raises
`IndexError`, aborting the run. -/
theorem c8_owner (f : DriveFile) :
    (f.owners = none → ∃ item, itemOfFile f = .ok item ∧ item.owner = "") ∧
    (∀ o os, f.owners = some (o :: os) →
      ∃ item, itemOfFile f = .ok item ∧
        item.owner = o.displayName.getD "") ∧
    (f.owners = some [] → itemOfFile f = .error .IndexError) := by
  refine ⟨?_, ?_, ?_⟩
  · intro h
    have hw : owner_of f = .ok "" := by
      unfold owner_of
      rw [h]
    exact ⟨_, itemOfFile_eq hw, rfl⟩
  · intro o os h
    have hw : owner_of f = .ok (o.displayName.getD "") := by
      unfold owner_of
      rw [h]
    exact ⟨_, itemOfFile_eq hw, rfl⟩
  · intro h
    have hw : owner_of f = .error .IndexError := by
      unfold owner_of
      rw [h]
    exact itemOfFile_err hw

/-- C8 witness: the amended statement at a file with one named owner and
at the empty-owners counterexample file. -/
theorem c8_witness :
    (∃ item, itemOfFile fileA = .ok item ∧
      item.owner = (⟨some "Alice"⟩ : DOwner).displayName.getD "") ∧
    itemOfFile ⟨"idD2", "d2", "text/plain", none, some [], none, none,
        none⟩ = .error .IndexError :=
  ⟨(c8_owner fileA).2.1 ⟨some "Alice"⟩ [] (by decide),
   (c8_owner ⟨"idD2", "d2", "text/plain", none, some [], none, none,
      none⟩).2.2 (by decide)⟩

/-- C9: the shared-container identifier has no effect on behaviour: two
lister runs differing only in `shared_drive_id` are identical — same
returned items or error, same issued remote requests (whose parameters
never mention the shared drive), same backoff sleeps — and two walker
runs differing only in the propagated `shared_drive_id` produce
identical results. -/
theorem c9_shared_drive_id_irrelevant :
    (∀ (fid : String) (s1 s2 : Option String) (mr : Nat)
        (pages : List PageP),
      get_folder_contents fid s1 mr pages =
        get_folder_contents fid s2 mr pages) ∧
    (∀ (drive : Drive) (fuel : Nat) (fid pp : String)
        (s1 s2 : Option String),
      get_metadata drive fuel fid pp s1 = get_metadata drive fuel fid pp s2) :=
  ⟨fun _ _ _ _ _ => rfl,
   fun drive fuel fid pp s1 s2 => get_metadata_sdid drive fuel fid pp s1 s2⟩

/-- C10: in index mode a listed item that omits `webViewLink` (but whose
owner extraction succeeds) makes the record builder raise
`KeyError "webViewLink"` — unlike `owner` and the timestamps there is
no absent-value fallback — the folder listing containing it propagates
the error, and an erroring traversal makes the entrypoint write no
output file. -/
theorem c10_missing_link_aborts (f : DriveFile) (fs1 : List DriveFile)
    (pre : List ItemX) (fs2 : List DriveFile) (fid : String) (mr : Nat)
    (sched : Nat → Option Nat) (rest : List PageP) (drive : Drive)
    (fuel : Nat) (rid rname : String) (e : PyError)
    (howners : f.owners ≠ some []) (hlink : f.webViewLink = none)
    (hpre : itemsOfFilesX fs1 = .ok pre)
    (hok : (pageAttempts fid sched 0 mr).1 = .ok ()) :
    itemOfFileX f = .error (.KeyError "webViewLink") ∧
    (get_folder_metadata fid mr (⟨sched, fs1 ++ f :: fs2⟩ :: rest)).result =
      .error (.KeyError "webViewLink") ∧
    (traverse_folder drive fuel rid rname = some (.error e) →
      run_index drive fuel rid rname = some none) := by
  have hkey := itemOfFileX_keyErr howners hlink
  exact ⟨hkey,
    get_folder_metadata_pageErr rest hok
      (itemsOfFilesX_insert_err fs1 pre f fs2 hpre hkey),
    fun h => run_index_abort h⟩

/-- C10 witness: a link-less file after one well-formed file makes the
builder raise `KeyError`, the page listing fail, and an index run over a
root containing it produce no output file. -/
theorem c10_witness :
    itemOfFileX ⟨"idE", "e", "text/plain", none, none, none, none, none⟩ =
      .error (.KeyError "webViewLink") ∧
    (get_folder_metadata "F" 7
        [⟨fun _ => none,
          [fileC] ++ ⟨"idE", "e", "text/plain", none, none, none, none,
            none⟩ :: []⟩]).result = .error (.KeyError "webViewLink") ∧
    run_index
      (fun _ => [⟨fun _ => none,
        [⟨"idE", "e", "text/plain", none, none, none, none, none⟩]⟩])
      1 "root" "R" = some none :=
  ⟨(c10_missing_link_aborts
      ⟨"idE", "e", "text/plain", none, none, none, none, none⟩ [fileC]
      [⟨"idC", "c.txt", "http://c", "text/plain", false, 0, "", "", ""⟩] []
      "F" 7 (fun _ => none) []
      (fun _ => [⟨fun _ => none,
        [⟨"idE", "e", "text/plain", none, none, none, none, none⟩]⟩])
      1 "root" "R" (.KeyError "webViewLink")
      (by decide) (by decide) (by decide) (by decide)).1,
   (c10_missing_link_aborts
      ⟨"idE", "e", "text/plain", none, none, none, none, none⟩ [fileC]
      [⟨"idC", "c.txt", "http://c", "text/plain", false, 0, "", "", ""⟩] []
      "F" 7 (fun _ => none) []
      (fun _ => [⟨fun _ => none,
        [⟨"idE", "e", "text/plain", none, none, none, none, none⟩]⟩])
      1 "root" "R" (.KeyError "webViewLink")
      (by decide) (by decide) (by decide) (by decide)).2.1,
   (c10_missing_link_aborts
      ⟨"idE", "e", "text/plain", none, none, none, none, none⟩ [fileC]
      [⟨"idC", "c.txt", "http://c", "text/plain", false, 0, "", "", ""⟩] []
      "F" 7 (fun _ => none) []
      (fun _ => [⟨fun _ => none,
        [⟨"idE", "e", "text/plain", none, none, none, none, none⟩]⟩])
      1 "root" "R" (.KeyError "webViewLink")
      (by decide) (by decide) (by decide) (by decide)).2.2 (by decide)⟩

end GDrive
